import Mathlib

/-!
Verification of the Hermes execution engine (worker pool, execution store,
action registry, Slack executor) against its natural-language specification.

The Go sources embedded here:
  services/hermes-worker/internal/integrations/slack/slack.go
    (packages slack, engine, store glued in one file)
  the webhook ingestion handler (package api, HandleWebhook)

Machine integers: Go `int` order indices are embedded as `Int`; payload and
string data as `String`; `map[string]any` configuration as an association
list of a small JSON-like value type.
-/

/-- A JSON-like configuration value, standing for Go `any` as it appears in
an action's `map[string]any` configuration. Only whether a value is a string
(and which string) is observable through the Go type assertion `v.(string)`. -/
inductive CVal where
  | str (s : String)
  | num (n : Int)
  | bool (b : Bool)
  | null
deriving Repr, DecidableEq

/-- Go `cfg[k].(string)` with the comma-ok pattern: a missing key or a
non-string value yields the empty string. -/
def getStr (cfg : List (String × CVal)) (k : String) : String :=
  match cfg.lookup k with
  | some (.str s) => s
  | _ => ""

/-- Errors produced by the worker-side store and engine, mirroring the Go
sentinel errors and `fmt.Errorf` wrappings in slack.go. -/
inductive GoErr where
  | relayNotFound
  | noActions
  | dedupInsertFailed (m : String)
  | registryGetNotFound (t : String)
  | actionFailed (t : String) (i : Int) (inner : String)
deriving Repr, DecidableEq

/-- The Go error text of each error, following the `errors.New` /
`fmt.Errorf` format strings in the source. The `registryGetNotFound` text is
modelled from the spec (the registry source is not under src/); it can only
depend on the action-type string that `Get` receives. -/
def GoErr.text : GoErr → String
  | .relayNotFound => "relay not found"
  | .noActions => "no actions configured for relay"
  | .dedupInsertFailed m => "dedupe insert failed: " ++ m
  | .registryGetNotFound t => "no executor registered for action type " ++ t
  | .actionFailed t i inner =>
      "action " ++ t ++ " (order " ++ toString i ++ ") failed: " ++ inner

/-- store.RelayAction: one row scanned by `Store.GetRelayActions`. -/
structure RelayAction where
  orderIndex : Int
  actionType : String
  config : List (String × CVal)
deriving Repr, DecidableEq

/-- A row of the `relays` table (the columns the worker reads). -/
structure Relay where
  id : String
  isActive : Bool
deriving Repr, DecidableEq

/-- A row of the `relay_actions` table (the columns the worker reads). -/
structure DBAction where
  relayID : String
  actionType : String
  config : List (String × CVal)
  orderIndex : Int
deriving Repr, DecidableEq

/-- A row of the `execution_logs` table as inserted by `Store.LogExecution`:
`INSERT INTO execution_logs(relay_id, event_id, status, payload, error_message,
executed_at)`. Timestamps are not modelled. -/
structure LogRow where
  relay_id : String
  event_id : String
  status : String
  payload : Option String
  error_message : Option String
deriving Repr, DecidableEq, Inhabited

/-- The relational backend reachable through `store.Store`, plus fault
switches standing for backend failures of the two INSERT statements
(`some m` = the statement fails with underlying error text `m`). -/
structure DB where
  relays : List Relay
  actions : List DBAction
  processedEvents : List (String × String)
  logs : List LogRow
  dedupFault : Option String
  logFault : Option String
deriving Repr, DecidableEq

/-- Store.RegisterEvent: `INSERT INTO processed_events ... ON CONFLICT DO
NOTHING` and report `RowsAffected() > 0`; an empty event id short-circuits to
`(true, nil)`; a backend error is wrapped as `dedupe insert failed: %w`. -/
def Store.RegisterEvent (db : DB) (relayID eventID : String) :
    Except GoErr (Bool × DB) :=
  if eventID = "" then .ok (true, db)
  else
    match db.dedupFault with
    | some m => .error (.dedupInsertFailed m)
    | none =>
      if (relayID, eventID) ∈ db.processedEvents then .ok (false, db)
      else .ok (true, { db with processedEvents := db.processedEvents ++ [(relayID, eventID)] })

/-- The rows of the SQL join in `Store.GetRelayActions`:
`relays r JOIN relay_actions a ON r.id = a.relay_id WHERE r.id = $1 AND
r.is_active = true` (relay ids are primary keys, so the relay side is a
membership test). -/
def DB.activeRelayRows (db : DB) (relayID : String) : List DBAction :=
  if db.relays.any (fun r => r.id == relayID && r.isActive) then
    db.actions.filter (fun a => a.relayID == relayID)
  else []

/-- The order used by `ORDER BY a.order_index ASC`. -/
def actLe (a b : RelayAction) : Prop := a.orderIndex ≤ b.orderIndex

instance : DecidableRel actLe := fun a b => inferInstanceAs (Decidable (a.orderIndex ≤ b.orderIndex))

instance : IsTotal RelayAction actLe := ⟨fun a b => Int.le_total a.orderIndex b.orderIndex⟩

instance : IsTrans RelayAction actLe := ⟨fun _ _ _ h1 h2 => le_trans h1 h2⟩

/-- Store.GetRelayActions: fetch the join's rows ordered by ascending
`order_index` (`ORDER BY` embedded as a sort), and return `ErrNoActions`
when no rows were scanned. -/
def Store.GetRelayActions (db : DB) (relayID : String) :
    Except GoErr (List RelayAction) :=
  let actions := List.insertionSort actLe
    ((db.activeRelayRows relayID).map
      (fun a => { orderIndex := a.orderIndex, actionType := a.actionType, config := a.config }))
  if actions.length = 0 then .error .noActions else .ok actions

/-- Store.LogExecution: append one `execution_logs` row. `payload` is NULL
when the byte slice is empty; `error_message` is set from `details` only
when `status != "success" && details != ""`. A backend failure returns the
wrapped error and writes nothing. -/
def Store.LogExecution (db : DB) (relayID eventID status details : String)
    (payload : String) : Except String DB :=
  match db.logFault with
  | some m => .error ("failed to write execution log: " ++ m)
  | none => .ok { db with logs := db.logs ++ [{
      relay_id := relayID
      event_id := eventID
      status := status
      payload := if payload.length > 0 then some payload else none
      error_message := if status ≠ "success" ∧ details ≠ "" then some details else none }] }

/-- An action executor: Go's `Execute(ctx, config, payload) error`, with a
`nil` result embedded as `.ok ()`. -/
def Executor := List (String × CVal) → String → Except String Unit

/-- The action registry: a table from action-type name to executor. -/
structure Registry where
  plugins : List (String × Executor)

/-- Modelled from the spec: `Registry.Get` (its Go source is not under
src/) — "a lookup table from action-type name to Executor; resolves unknown
types as errors", "`Get(type)` returns the executor or a not-found error;
there is no fallback or default executor". It receives only the action-type
string. -/
def Registry.Get (reg : Registry) (t : String) : Except GoErr Executor :=
  match reg.plugins.lookup t with
  | some e => .ok e
  | none => .error (.registryGetNotFound t)

/-- engine.Job. -/
structure Job where
  relayID : String
  eventID : String
  payload : String
deriving Repr, DecidableEq

/-- The observable outcome of `WorkerPool.process` on one job: the returned
error, the database afterwards, the executor invocations in order
(action type, order index), and how many times `GetRelayActions` ran. -/
structure ProcOut where
  err : Option GoErr
  db : DB
  execTrace : List (String × Int)
  fetchCalls : Nat
deriving Repr, DecidableEq

/-- The action loop of `WorkerPool.process`: for each action in order,
resolve the executor in the registry (unknown type returns the lookup error
as-is) and invoke it; an executor error is wrapped as
`action %s (order %d) failed: %w`. The trace records each executor
invocation. -/
def execLoop (reg : Registry) (payload : String) :
    List RelayAction → List (String × Int) → Option GoErr × List (String × Int)
  | [], tr => (none, tr)
  | act :: rest, tr =>
    match reg.Get act.actionType with
    | .error e => (some e, tr)
    | .ok ex =>
      let tr' := tr ++ [(act.actionType, act.orderIndex)]
      match ex act.config payload with
      | .error msg => (some (.actionFailed act.actionType act.orderIndex msg), tr')
      | .ok _ => execLoop reg payload rest tr'

/-- The body of `WorkerPool.process` after the dedup stage: fetch the
relay's actions, then run the action loop. -/
def runActions (reg : Registry) (job : Job) (db : DB) :
    Option GoErr × List (String × Int) :=
  match Store.GetRelayActions db job.relayID with
  | .error e => (some e, [])
  | .ok as => execLoop reg job.payload as []

/-- The part of `WorkerPool.process` covered by the deferred audit write:
run the body, then — as the Go source does at its call site — invoke
`LogExecution(logCtx, job.RelayID, status, details, job.EventID, job.Payload)`
against the signature
`LogExecution(ctx, relayID, eventID, status, details, payload)`
(the arguments are passed positionally exactly as in the source). A write
error is only logged operationally and does not alter the returned error. -/
def processLogged (reg : Registry) (job : Job) (db : DB) : ProcOut :=
  let e := (runActions reg job db).1
  let tr := (runActions reg job db).2
  let status := if e.isSome then "failed" else "success"
  let details := match e with
    | some ge => ge.text
    | none => "Relay executed successfully"
  let db2 := match Store.LogExecution db job.relayID status details job.eventID job.payload with
    | .ok d => d
    | .error _ => db
  { err := e, db := db2, execTrace := tr, fetchCalls := 1 }

/-- WorkerPool.process: claim the dedup marker when the event id is
non-empty (a storage error aborts before the audit defer is installed; a
duplicate returns nil immediately without logging or fetching), then run
the logged body. -/
def WorkerPool.process (reg : Registry) (db : DB) (job : Job) : ProcOut :=
  if job.eventID ≠ "" then
    match Store.RegisterEvent db job.relayID job.eventID with
    | .error e => { err := some e, db := db, execTrace := [], fetchCalls := 0 }
    | .ok (isNew, db1) =>
      if !isNew then { err := none, db := db1, execTrace := [], fetchCalls := 0 }
      else processLogged reg job db1
  else processLogged reg job db

/-- The acknowledge boolean the worker passes to `job.MsgAck`: `true` iff
`process` returned a nil error. -/
def workerAck (reg : Registry) (db : DB) (job : Job) : Bool :=
  ((WorkerPool.process reg db job).err).isNone

/-- The outcome of one HTTP POST attempt by the Slack sender, as far as the
retry loop can observe it: a transport error from `client.Do` (with the
error's text) or a response status code. -/
inductive Outcome where
  | transport (m : String)
  | status (c : Nat)
deriving Repr, DecidableEq

/-- The retry condition of the Slack sender: `doErr != nil`, 429, or 5xx. -/
def retryable : Outcome → Prop
  | .transport _ => True
  | .status c => c = 429 ∨ c ≥ 500

instance : ∀ o, Decidable (retryable o)
  | .transport _ => .isTrue trivial
  | .status c => inferInstanceAs (Decidable (c = 429 ∨ c ≥ 500))

/-- The error text the loop stores in `lastErr` for a retryable outcome:
the transport error itself, or `slack returned %d`. -/
def outcomeFailText : Outcome → String
  | .transport m => m
  | .status c => "slack returned " ++ toString c

/-- What one call of the Slack `Sender.Execute` did: its returned error
(`none` = nil), the body text of each POST attempt in order, and each
`time.Sleep` duration in milliseconds in order. -/
structure SendTrace where
  result : Option String
  posts : List String
  sleeps : List Nat
deriving Repr, DecidableEq

/-- The `for attempt := range 3` loop of the Slack sender. `remaining` is
the number of iterations left (the loop starts with 3); `attempt` the Go
loop variable. Each iteration POSTs the body, then: a transport error or a
429/5xx status stores the failure in `lastErr` and sleeps
`200*(attempt+1)` ms; a 2xx returns nil; any other status returns a
non-retryable error at once. Exhaustion wraps `lastErr`. -/
def slackLoop (rs : Nat → Outcome) (text : String) :
    Nat → Nat → String → List String → List Nat → SendTrace
  | 0, _, lastErr, posts, sleeps =>
    { result := some ("slack send failed after retries: " ++ lastErr)
      posts := posts, sleeps := sleeps }
  | r + 1, attempt, lastErr, posts, sleeps =>
    let posts' := posts ++ [text]
    match rs attempt with
    | .transport m =>
        slackLoop rs text r (attempt + 1) m posts' (sleeps ++ [200 * (attempt + 1)])
    | .status c =>
        if c = 429 ∨ c ≥ 500 then
          slackLoop rs text r (attempt + 1) ("slack returned " ++ toString c)
            posts' (sleeps ++ [200 * (attempt + 1)])
        else if 200 ≤ c ∧ c < 300 then
          { result := none, posts := posts', sleeps := sleeps }
        else
          { result := some ("slack returned non-retryable status " ++ toString c)
            posts := posts', sleeps := sleeps }

/-- slack `Sender.Execute`: read `webhook_url` and `message_template` via
`.(string)` assertions; an empty URL is a configuration error before any
attempt; the body text is the template when non-empty, else the payload
rendered as `Payload:\n` + a json code fence; then run the retry loop with
the environment `rs` giving each attempt's outcome. -/
def Sender.Execute (cfg : List (String × CVal)) (payload : String)
    (rs : Nat → Outcome) : SendTrace :=
  let webhookURL := getStr cfg "webhook_url"
  let template := getStr cfg "message_template"
  if webhookURL = "" then
    { result := some "missing webhook_url in slack action config", posts := [], sleeps := [] }
  else
    let text := if template ≠ "" then template
      else "Payload:\n```json\n" ++ payload ++ "\n```"
    slackLoop rs text 3 0 "" [] []

/-- One hexadecimal digit, as used by the canonical UUID rendering. -/
def hexDigitChar (n : Nat) : Char :=
  if n < 10 then Char.ofNat (48 + n) else Char.ofNat (87 + n)

/-- Two lowercase hex digits of one byte. -/
def byteHex (b : Nat) : String :=
  String.mk [hexDigitChar (b / 16 % 16), hexDigitChar (b % 16)]

/-- Lowercase hex of a byte sequence. -/
def bytesHex (bs : List Nat) : String := String.join (bs.map byteHex)

/-- `uuid.New().String()` of the google/uuid library: the canonical
8-4-4-4-12 lowercase-hex rendering of 16 random bytes. Only its shape
matters here (it is never empty); the randomness is the `bs` argument. -/
def uuidNewString (bs : List Nat) : String :=
  bytesHex (bs.take 4) ++ "-" ++ bytesHex ((bs.drop 4).take 2) ++ "-" ++
    bytesHex ((bs.drop 6).take 2) ++ "-" ++ bytesHex ((bs.drop 8).take 2) ++ "-" ++
    bytesHex ((bs.drop 10).take 6)

/-- api.ExecutionEvent (the fields the worker consumes; `received_at` is
not modelled). -/
structure ExecutionEvent where
  eventID : String
  relayID : String
  payload : String
deriving Repr, DecidableEq

/-- api `Handler.HandleWebhook`: reject an empty relay id; otherwise choose
the event id as the `X-Event-ID` header, else the `event_id` query
parameter, else a fresh UUID; publish the event built from it. The result
is the event handed to `producer.Publish` (`none` when nothing is
published). -/
def HandleWebhook (relayID headerEventID queryEventID : String)
    (uuidBytes : List Nat) (body : String) : Option ExecutionEvent :=
  if relayID = "" then none
  else
    let e1 := headerEventID
    let e2 := if e1 = "" then queryEventID else e1
    let eventID := if e2 = "" then uuidNewString uuidBytes else e2
    some { eventID := eventID, relayID := relayID, payload := body }

-- Concrete relay setups used by the claim witnesses below.
def db0 : DB :=
  { relays := [{ id := "r1", isActive := true }]
    actions := [{ relayID := "r1", actionType := "noop", config := [], orderIndex := 1 }]
    processedEvents := []
    logs := []
    dedupFault := none
    logFault := none }

def okExec : Executor := fun _ _ => .ok ()

def reg0 : Registry := { plugins := [("noop", okExec)] }

def job0 : Job := { relayID := "r1", eventID := "e1", payload := "p" }

/-! ## Helper lemmas -/

/-- `GetRelayActions` reads only the `relays` and `relay_actions` tables. -/
theorem GetRelayActions_congr (db db' : DB) (rid : String)
    (h1 : db'.relays = db.relays) (h2 : db'.actions = db.actions) :
    Store.GetRelayActions db' rid = Store.GetRelayActions db rid := by
  simp [Store.GetRelayActions, DB.activeRelayRows, h1, h2]

/-- `runActions` reads only the `relays` and `relay_actions` tables. -/
theorem runActions_congr (reg : Registry) (job : Job) (db db' : DB)
    (h1 : db'.relays = db.relays) (h2 : db'.actions = db.actions) :
    runActions reg job db' = runActions reg job db := by
  unfold runActions
  rw [GetRelayActions_congr db db' job.relayID h1 h2]

theorem processLogged_err (reg : Registry) (job : Job) (db : DB) :
    (processLogged reg job db).err = (runActions reg job db).1 := rfl

theorem processLogged_execTrace (reg : Registry) (job : Job) (db : DB) :
    (processLogged reg job db).execTrace = (runActions reg job db).2 := rfl

theorem processLogged_fetchCalls (reg : Registry) (job : Job) (db : DB) :
    (processLogged reg job db).fetchCalls = 1 := rfl

/-- The audit write only appends to `execution_logs`: the dedup table and
the fault switches are untouched by `processLogged`. -/
theorem processLogged_db_preserves (reg : Registry) (job : Job) (db : DB) :
    (processLogged reg job db).db.processedEvents = db.processedEvents ∧
    (processLogged reg job db).db.dedupFault = db.dedupFault ∧
    (processLogged reg job db).db.relays = db.relays ∧
    (processLogged reg job db).db.actions = db.actions := by
  unfold processLogged Store.LogExecution
  cases hl : db.logFault <;> simp

/-- The dedup stage lets a job through: either dedup is disabled (empty
event id), or the backend is healthy and the marker is not yet present. -/
def dedupPass (db : DB) (job : Job) : Prop :=
  job.eventID = "" ∨
    (db.dedupFault = none ∧ (job.relayID, job.eventID) ∉ db.processedEvents)

/-- A job that passes the dedup stage behaves as the logged body run on a
database that differs from `db` at most in `processed_events`. -/
theorem process_dedupPass (reg : Registry) (db : DB) (job : Job)
    (h : dedupPass db job) :
    (WorkerPool.process reg db job).err = (runActions reg job db).1 ∧
    (WorkerPool.process reg db job).execTrace = (runActions reg job db).2 ∧
    (WorkerPool.process reg db job).fetchCalls = 1 := by
  rcases h with he | ⟨hf, hm⟩
  · simp [WorkerPool.process, he, processLogged_err, processLogged_execTrace,
      processLogged_fetchCalls]
  · by_cases he : job.eventID = ""
    · simp [WorkerPool.process, he, processLogged_err, processLogged_execTrace,
        processLogged_fetchCalls]
    · have hreg : Store.RegisterEvent db job.relayID job.eventID =
          .ok (true, { db with processedEvents :=
            db.processedEvents ++ [(job.relayID, job.eventID)] }) := by
        simp [Store.RegisterEvent, he, hf, hm]
      have hrun : runActions reg job
          { db with processedEvents :=
            db.processedEvents ++ [(job.relayID, job.eventID)] } =
          runActions reg job db :=
        runActions_congr reg job db _ rfl rfl
      simp [WorkerPool.process, he, hreg, processLogged_err,
        processLogged_execTrace, processLogged_fetchCalls, hrun]

/-! ## C1 -/

/-- C1: FALSIFIED on the code. The call site
`LogExecution(logCtx, job.RelayID, status, details, job.EventID, job.Payload)`
misaligns with the signature
`LogExecution(ctx, relayID, eventID, status, details, payload)`.
On a relay `r1` with one succeeding action and job (relay `r1`, event `e1`,
payload `p`), exactly one audit row is appended, but its `status` column
holds the detail text `Relay executed successfully` (neither `success` nor
`failed`), its `event_id` column holds the string `success`, and the event
id `e1` lands in `error_message`. -/
theorem C1_log_fields_swapped :
    (WorkerPool.process reg0 db0 job0).err = none ∧
    (WorkerPool.process reg0 db0 job0).db.logs.length = 1 ∧
    ((WorkerPool.process reg0 db0 job0).db.logs.headD default).relay_id = "r1" ∧
    ((WorkerPool.process reg0 db0 job0).db.logs.headD default).status =
      "Relay executed successfully" ∧
    ((WorkerPool.process reg0 db0 job0).db.logs.headD default).status ≠ "success" ∧
    ((WorkerPool.process reg0 db0 job0).db.logs.headD default).status ≠ "failed" ∧
    ((WorkerPool.process reg0 db0 job0).db.logs.headD default).event_id = "success" ∧
    ((WorkerPool.process reg0 db0 job0).db.logs.headD default).event_id ≠ job0.eventID ∧
    ((WorkerPool.process reg0 db0 job0).db.logs.headD default).error_message =
      some job0.eventID := by
  decide

/-! ## C7 -/

/-- C7: if the dedup-marker insert itself returns a storage error, the whole
job fails: the wrapped error is propagated, the job is acknowledged `false`,
no audit record is written, and actions are never fetched or executed. -/
theorem C7_dedup_error_fails_job (reg : Registry) (db : DB) (job : Job)
    (m : String) (hne : job.eventID ≠ "") (hf : db.dedupFault = some m) :
    (WorkerPool.process reg db job).err = some (.dedupInsertFailed m) ∧
    (WorkerPool.process reg db job).db = db ∧
    (WorkerPool.process reg db job).execTrace = [] ∧
    (WorkerPool.process reg db job).fetchCalls = 0 ∧
    workerAck reg db job = false := by
  have hreg : Store.RegisterEvent db job.relayID job.eventID =
      .error (.dedupInsertFailed m) := by
    simp [Store.RegisterEvent, hne, hf]
  simp [WorkerPool.process, workerAck, hne, hreg]

theorem C7_dedup_error_fails_job_witness :
    (WorkerPool.process reg0 { db0 with dedupFault := some "db down" } job0).err =
      some (.dedupInsertFailed "db down") ∧
    (WorkerPool.process reg0 { db0 with dedupFault := some "db down" } job0).db =
      { db0 with dedupFault := some "db down" } ∧
    (WorkerPool.process reg0 { db0 with dedupFault := some "db down" } job0).execTrace = [] ∧
    (WorkerPool.process reg0 { db0 with dedupFault := some "db down" } job0).fetchCalls = 0 ∧
    workerAck reg0 { db0 with dedupFault := some "db down" } job0 = false :=
  C7_dedup_error_fails_job reg0 { db0 with dedupFault := some "db down" } job0
    "db down" (by decide) rfl

/-! ## C2 -/

/-- After any first processing of a job with a non-empty event id against a
healthy dedup backend, the dedup marker is present and the backend is still
healthy. -/
theorem process_marker_mem (reg : Registry) (db : DB) (job : Job)
    (hne : job.eventID ≠ "") (hf : db.dedupFault = none) :
    (job.relayID, job.eventID) ∈ (WorkerPool.process reg db job).db.processedEvents ∧
    (WorkerPool.process reg db job).db.dedupFault = none := by
  by_cases hm : (job.relayID, job.eventID) ∈ db.processedEvents
  · have hreg : Store.RegisterEvent db job.relayID job.eventID = .ok (false, db) := by
      simp [Store.RegisterEvent, hne, hf, hm]
    simp [WorkerPool.process, hne, hreg, hm, hf]
  · have hreg : Store.RegisterEvent db job.relayID job.eventID =
        .ok (true, { db with processedEvents :=
          db.processedEvents ++ [(job.relayID, job.eventID)] }) := by
      simp [Store.RegisterEvent, hne, hf, hm]
    have hpres := processLogged_db_preserves reg job
      { db with processedEvents := db.processedEvents ++ [(job.relayID, job.eventID)] }
    simp [WorkerPool.process, hne, hreg]
    constructor
    · rw [hpres.1]; simp
    · rw [hpres.2.1]; exact hf

/-- C2: a second delivery of the same (relay id, event id) job with
non-empty event id, after a first processing, is a no-op: nil error, no
executor invoked, no action fetch, no new audit row, acknowledged `true`. -/
theorem C2_duplicate_second_run_noop (reg : Registry) (db : DB) (job : Job)
    (hne : job.eventID ≠ "") (hf : db.dedupFault = none) :
    (WorkerPool.process reg (WorkerPool.process reg db job).db job).err = none ∧
    (WorkerPool.process reg (WorkerPool.process reg db job).db job).execTrace = [] ∧
    (WorkerPool.process reg (WorkerPool.process reg db job).db job).fetchCalls = 0 ∧
    (WorkerPool.process reg (WorkerPool.process reg db job).db job).db.logs =
      (WorkerPool.process reg db job).db.logs ∧
    workerAck reg (WorkerPool.process reg db job).db job = true := by
  obtain ⟨hmem, hdf⟩ := process_marker_mem reg db job hne hf
  generalize hg : (WorkerPool.process reg db job).db = db1 at hmem hdf ⊢
  have hreg : Store.RegisterEvent db1 job.relayID job.eventID = .ok (false, db1) := by
    simp [Store.RegisterEvent, hne, hdf, hmem]
  simp [WorkerPool.process, workerAck, hne, hreg]

theorem C2_duplicate_second_run_noop_witness :
    (WorkerPool.process reg0 (WorkerPool.process reg0 db0 job0).db job0).err = none ∧
    (WorkerPool.process reg0 (WorkerPool.process reg0 db0 job0).db job0).execTrace = [] ∧
    (WorkerPool.process reg0 (WorkerPool.process reg0 db0 job0).db job0).fetchCalls = 0 ∧
    (WorkerPool.process reg0 (WorkerPool.process reg0 db0 job0).db job0).db.logs =
      (WorkerPool.process reg0 db0 job0).db.logs ∧
    workerAck reg0 (WorkerPool.process reg0 db0 job0).db job0 = true :=
  C2_duplicate_second_run_noop reg0 db0 job0 (by decide) rfl

/-! ## C8 -/

/-- `RegisterEvent` ignores `logFault`; its database result carries the
changed flag through unchanged. -/
theorem RegisterEvent_logFault (db : DB) (r e : String) (b : Option String) :
    Store.RegisterEvent { db with logFault := b } r e =
      match Store.RegisterEvent db r e with
      | .error err => .error err
      | .ok (n, d) => .ok (n, { d with logFault := b }) := by
  by_cases he : e = ""
  · simp [Store.RegisterEvent, he]
  · cases hf : db.dedupFault with
    | some m => simp [Store.RegisterEvent, he, hf]
    | none =>
      by_cases hm : (r, e) ∈ db.processedEvents <;>
        simp [Store.RegisterEvent, he, hf, hm]

/-- `runActions` ignores `logFault`. -/
theorem runActions_logFault (reg : Registry) (job : Job) (db : DB)
    (b : Option String) :
    runActions reg job { db with logFault := b } = runActions reg job db :=
  runActions_congr reg job db _ rfl rfl

/-- The returned error of `process` does not depend on whether the audit
write's backend is failing. -/
theorem process_err_logFault (reg : Registry) (db : DB) (job : Job)
    (b : Option String) :
    (WorkerPool.process reg { db with logFault := b } job).err =
      (WorkerPool.process reg db job).err := by
  have hpl : ∀ d : DB, (processLogged reg job { d with logFault := b }).err =
      (processLogged reg job d).err := by
    intro d
    rw [processLogged_err, processLogged_err, runActions_logFault]
  by_cases he : job.eventID = ""
  · simp [WorkerPool.process, he, hpl]
  · simp only [WorkerPool.process, he, ne_eq, not_false_iff, if_true,
      RegisterEvent_logFault]
    cases hreg : Store.RegisterEvent db job.relayID job.eventID with
    | error err => simp
    | ok p =>
      obtain ⟨n, d⟩ := p
      cases n <;> simp [hpl]

/-- C8: a failure of the outcome-recording write never changes a job's
reported result: the error returned by `process`, and hence the boolean the
worker passes to the acknowledge callback, is the same whether the
execution-log insert succeeds or fails. -/
theorem C8_log_failure_does_not_change_ack (reg : Registry) (db : DB)
    (job : Job) (b : Option String) :
    (WorkerPool.process reg { db with logFault := b } job).err =
      (WorkerPool.process reg db job).err ∧
    workerAck reg { db with logFault := b } job = workerAck reg db job := by
  refine ⟨process_err_logFault reg db job b, ?_⟩
  unfold workerAck
  rw [process_err_logFault]

/-! ## C6 -/

/-- C6: a relay with zero configured action rows, and likewise a relay all
of whose rows are inactive, makes `GetRelayActions` return the
no-actions-configured error, which is distinct from the relay-not-found
sentinel; a job reaching the fetch stage then fails with that error and is
acknowledged `false` rather than silently succeeding. -/
theorem C6_no_actions_distinguished (reg : Registry) (db : DB) (job : Job)
    (hded : dedupPass db job)
    (hz : db.actions.filter (fun a => a.relayID == job.relayID) = [] ∨
      db.relays.any (fun r => r.id == job.relayID && r.isActive) = false) :
    Store.GetRelayActions db job.relayID = .error GoErr.noActions ∧
    GoErr.noActions ≠ GoErr.relayNotFound ∧
    (WorkerPool.process reg db job).err = some GoErr.noActions ∧
    workerAck reg db job = false := by
  have hrows : db.activeRelayRows job.relayID = [] := by
    unfold DB.activeRelayRows
    rcases hz with hz | hz
    · simp [hz]
    · simp [hz]
  have hfetch : Store.GetRelayActions db job.relayID = .error GoErr.noActions := by
    simp [Store.GetRelayActions, hrows]
  have herr : (WorkerPool.process reg db job).err = some GoErr.noActions := by
    rw [(process_dedupPass reg db job hded).1]
    simp [runActions, hfetch]
  refine ⟨hfetch, by simp, herr, ?_⟩
  unfold workerAck
  rw [herr]
  rfl

def dbNoActions : DB :=
  { relays := [{ id := "r2", isActive := true }]
    actions := []
    processedEvents := []
    logs := []
    dedupFault := none
    logFault := none }

def job2 : Job := { relayID := "r2", eventID := "e2", payload := "p" }

theorem C6_no_actions_distinguished_witness :
    Store.GetRelayActions dbNoActions job2.relayID = .error GoErr.noActions ∧
    GoErr.noActions ≠ GoErr.relayNotFound ∧
    (WorkerPool.process reg0 dbNoActions job2).err = some GoErr.noActions ∧
    workerAck reg0 dbNoActions job2 = false :=
  C6_no_actions_distinguished reg0 dbNoActions job2
    (Or.inr ⟨rfl, by decide⟩) (Or.inl rfl)

/-! ## C3 / C4 helper lemmas about the action loop -/

/-- Running the loop past a prefix of actions that all resolve and succeed
just extends the trace with that prefix. -/
theorem execLoop_append_ok (reg : Registry) (p : String) (rest : List RelayAction) :
    ∀ (pre : List RelayAction) (tr : List (String × Int)),
      (∀ a ∈ pre, ∃ ex, reg.Get a.actionType = .ok ex ∧ ex a.config p = .ok ()) →
      execLoop reg p (pre ++ rest) tr =
        execLoop reg p rest (tr ++ pre.map (fun a => (a.actionType, a.orderIndex)))
  | [], tr, _ => by simp
  | a :: l, tr, hpre => by
    obtain ⟨ex, hg, he⟩ := hpre a (List.mem_cons_self a l)
    simp only [List.cons_append, execLoop, hg, he, List.append_eq]
    rw [execLoop_append_ok reg p rest l (tr ++ [(a.actionType, a.orderIndex)])
      (fun x hx => hpre x (List.mem_cons_of_mem a hx))]
    simp

/-- An unknown action type at the head of the loop aborts at once, with the
registry's lookup error and no executor invocation. -/
theorem execLoop_unknown (reg : Registry) (p : String) (act : RelayAction)
    (post : List RelayAction) (tr : List (String × Int))
    (hu : reg.plugins.lookup act.actionType = none) :
    execLoop reg p (act :: post) tr =
      (some (.registryGetNotFound act.actionType), tr) := by
  simp [execLoop, Registry.Get, hu]

/-- An executor failure at the head of the loop aborts at once, wrapping the
error with the action's type and order index; the failing executor itself
was invoked, nothing after it. -/
theorem execLoop_execErr (reg : Registry) (p : String) (act : RelayAction)
    (post : List RelayAction) (tr : List (String × Int)) (ex : Executor)
    (msg : String) (hg : reg.Get act.actionType = .ok ex)
    (he : ex act.config p = .error msg) :
    execLoop reg p (act :: post) tr =
      (some (.actionFailed act.actionType act.orderIndex msg),
        tr ++ [(act.actionType, act.orderIndex)]) := by
  simp [execLoop, hg, he]

/-- The loop's trace is always the trace so far extended by some initial
segment of the remaining actions, in order. -/
theorem execLoop_trace_take (reg : Registry) (p : String) :
    ∀ (as : List RelayAction) (tr : List (String × Int)),
      ∃ k, (execLoop reg p as tr).2 =
        tr ++ ((as.take k).map (fun a => (a.actionType, a.orderIndex)))
  | [], tr => ⟨0, by simp [execLoop]⟩
  | a :: l, tr => by
    cases hg : reg.Get a.actionType with
    | error e => exact ⟨0, by simp [execLoop, hg]⟩
    | ok ex =>
      cases he : ex a.config p with
      | error msg =>
        exact ⟨1, by simp [execLoop, hg, he]⟩
      | ok u =>
        obtain ⟨k, hk⟩ := execLoop_trace_take reg p l (tr ++ [(a.actionType, a.orderIndex)])
        exact ⟨k + 1, by simp [execLoop, hg, he, hk]⟩

/-- `RegisterEvent` never touches the `relays` and `relay_actions` tables. -/
theorem RegisterEvent_ok_proj (db : DB) (r e : String) (n : Bool) (d : DB)
    (h : Store.RegisterEvent db r e = .ok (n, d)) :
    d.relays = db.relays ∧ d.actions = db.actions := by
  by_cases he : e = ""
  · simp [Store.RegisterEvent, he] at h
    rw [← h.2]
    exact ⟨rfl, rfl⟩
  · cases hf : db.dedupFault with
    | some m => simp [Store.RegisterEvent, he, hf] at h
    | none =>
      by_cases hm : (r, e) ∈ db.processedEvents <;>
        simp [Store.RegisterEvent, he, hf, hm] at h <;>
        rw [← h.2] <;> exact ⟨rfl, rfl⟩

/-- Whatever path `process` takes, its executor trace is empty or the trace
of the logged body on a database with the same `relays` and
`relay_actions` tables. -/
theorem process_trace_cases (reg : Registry) (db : DB) (job : Job) :
    (WorkerPool.process reg db job).execTrace = [] ∨
    (WorkerPool.process reg db job).execTrace = (runActions reg job db).2 := by
  by_cases he : job.eventID = ""
  · right; simp [WorkerPool.process, he, processLogged_execTrace]
  · cases hreg : Store.RegisterEvent db job.relayID job.eventID with
    | error er => left; simp [WorkerPool.process, he, hreg]
    | ok pr =>
      obtain ⟨n, d⟩ := pr
      cases n with
      | false => left; simp [WorkerPool.process, he, hreg]
      | true =>
        right
        obtain ⟨h1, h2⟩ := RegisterEvent_ok_proj db job.relayID job.eventID true d hreg
        simp [WorkerPool.process, he, hreg, processLogged_execTrace,
          runActions_congr reg job db d h1 h2]

/-! ## C3 -/

/-- Whether the character sequence `pat` occurs contiguously in `hay`. -/
def listStartsWith : List Char → List Char → Bool
  | _, [] => true
  | [], _ :: _ => false
  | a :: as, b :: bs => a = b && listStartsWith as bs

/-- Whether `pat` occurs contiguously anywhere in `hay`. -/
def listHasSeq : List Char → List Char → Bool
  | [], pat => pat.isEmpty
  | h :: t, pat => listStartsWith (h :: t) pat || listHasSeq t pat

/-- Whether the decimal rendering of order index `i` occurs in error text
`s` — the reading of "the error names the order index". -/
def namesIndex (s : String) (i : Int) : Bool :=
  listHasSeq s.toList (toString i).toList

def actNoop1 : RelayAction :=
  { orderIndex := 1, actionType := "noop", config := [] }

def actBogus : RelayAction :=
  { orderIndex := 424242, actionType := "bogus", config := [] }

def actNoop5 : RelayAction :=
  { orderIndex := 500000, actionType := "noop", config := [] }

def dbC3 : DB :=
  { relays := [{ id := "r3", isActive := true }]
    actions := [
      { relayID := "r3", actionType := "noop", config := [], orderIndex := 1 },
      { relayID := "r3", actionType := "bogus", config := [], orderIndex := 424242 },
      { relayID := "r3", actionType := "noop", config := [], orderIndex := 500000 }]
    processedEvents := []
    logs := []
    dedupFault := none
    logFault := none }

def job3 : Job := { relayID := "r3", eventID := "", payload := "p" }

/-- C3 as stated is FALSE for the unknown-action-type failure: `process`
returns the registry's lookup error unwrapped, so the job's error does not
name the failing action's order index. Concretely, with an unregistered
action type `bogus` at order index 424242 (after a succeeding action at
index 1), the chain aborts (the later action at index 500000 is never
invoked) and the job is acknowledged `false`, but the error text does not
contain `424242`. -/
theorem C3_unknown_type_error_lacks_order_index :
    (WorkerPool.process reg0 dbC3 job3).err =
      some (GoErr.registryGetNotFound "bogus") ∧
    (WorkerPool.process reg0 dbC3 job3).execTrace = [("noop", 1)] ∧
    workerAck reg0 dbC3 job3 = false ∧
    namesIndex (GoErr.registryGetNotFound "bogus").text 424242 = false := by
  decide

/-- C3 amended: within one job, when the action after a succeeding prefix
fails, no executor for any later action is invoked and the job is
acknowledged `false`; an executor failure is annotated with the failing
action's type and order index, while an unknown action type propagates the
registry's lookup error (a value that mentions the type only and is
independent of the order index). -/
theorem C3_failfast_amended (reg : Registry) (db : DB) (job : Job)
    (pre post : List RelayAction) (act : RelayAction)
    (hded : dedupPass db job)
    (hfetch : Store.GetRelayActions db job.relayID = .ok (pre ++ act :: post))
    (hpre : ∀ a ∈ pre, ∃ ex, reg.Get a.actionType = .ok ex ∧
      ex a.config job.payload = .ok ()) :
    (∀ ex msg, reg.Get act.actionType = .ok ex →
      ex act.config job.payload = .error msg →
      (WorkerPool.process reg db job).err =
        some (.actionFailed act.actionType act.orderIndex msg) ∧
      (WorkerPool.process reg db job).execTrace =
        (pre ++ [act]).map (fun a => (a.actionType, a.orderIndex)) ∧
      (GoErr.actionFailed act.actionType act.orderIndex msg).text =
        "action " ++ act.actionType ++ " (order " ++ toString act.orderIndex ++
          ") failed: " ++ msg ∧
      workerAck reg db job = false) ∧
    (reg.plugins.lookup act.actionType = none →
      (WorkerPool.process reg db job).err =
        some (.registryGetNotFound act.actionType) ∧
      (WorkerPool.process reg db job).execTrace =
        pre.map (fun a => (a.actionType, a.orderIndex)) ∧
      workerAck reg db job = false) := by
  obtain ⟨herr, htr, -⟩ := process_dedupPass reg db job hded
  constructor
  · intro ex msg hg he
    have hrun : runActions reg job db =
        (some (.actionFailed act.actionType act.orderIndex msg),
          (pre ++ [act]).map (fun a => (a.actionType, a.orderIndex))) := by
      simp only [runActions, hfetch]
      rw [execLoop_append_ok reg job.payload (act :: post) pre [] hpre]
      rw [execLoop_execErr reg job.payload act post _ ex msg hg he]
      simp
    refine ⟨?_, ?_, rfl, ?_⟩
    · rw [herr, hrun]
    · rw [htr, hrun]
    · unfold workerAck
      rw [herr, hrun]
      rfl
  · intro hu
    have hrun : runActions reg job db =
        (some (.registryGetNotFound act.actionType),
          pre.map (fun a => (a.actionType, a.orderIndex))) := by
      simp only [runActions, hfetch]
      rw [execLoop_append_ok reg job.payload (act :: post) pre [] hpre]
      rw [execLoop_unknown reg job.payload act post _ hu]
      simp
    refine ⟨?_, ?_, ?_⟩
    · rw [herr, hrun]
    · rw [htr, hrun]
    · unfold workerAck
      rw [herr, hrun]
      rfl

theorem C3_failfast_amended_witness :
    (WorkerPool.process reg0 dbC3 job3).err =
      some (GoErr.registryGetNotFound actBogus.actionType) ∧
    (WorkerPool.process reg0 dbC3 job3).execTrace =
      [actNoop1].map (fun a => (a.actionType, a.orderIndex)) ∧
    workerAck reg0 dbC3 job3 = false :=
  (C3_failfast_amended reg0 dbC3 job3 [actNoop1] [actNoop5] actBogus
    (Or.inl rfl) rfl
    (fun a ha => by
      rw [List.mem_singleton] at ha
      subst ha
      exact ⟨okExec, rfl, rfl⟩)).2 rfl

/-! ## C4 -/

/-- C4: the fetched action list is sorted ascending by order index, and the
executors `process` invokes are exactly an initial segment of that list in
list order (sequential, never reordered; later entries appear only after
all earlier ones). -/
theorem C4_actions_sorted_and_sequential (reg : Registry) (db : DB)
    (job : Job) (as : List RelayAction)
    (hfetch : Store.GetRelayActions db job.relayID = .ok as) :
    List.Sorted actLe as ∧
    List.IsPrefix ((WorkerPool.process reg db job).execTrace)
      (as.map (fun a => (a.actionType, a.orderIndex))) := by
  constructor
  · have hs : as = List.insertionSort actLe
        ((db.activeRelayRows job.relayID).map
          (fun a => ⟨a.orderIndex, a.actionType, a.config⟩)) := by
      simp only [Store.GetRelayActions] at hfetch
      split at hfetch
      · simp at hfetch
      · injection hfetch with h
        exact h.symm
    rw [hs]
    exact List.sorted_insertionSort actLe _
  · rcases process_trace_cases reg db job with htr | htr
    · rw [htr]; exact List.nil_prefix
    · rw [htr]
      have hrun : (runActions reg job db).2 = (execLoop reg job.payload as []).2 := by
        simp [runActions, hfetch]
      obtain ⟨k, hk⟩ := execLoop_trace_take reg job.payload as []
      rw [hrun, hk]
      simp only [List.nil_append, List.map_take]
      exact List.take_prefix k _

theorem C4_actions_sorted_and_sequential_witness :
    List.Sorted actLe [actNoop1, actBogus, actNoop5] ∧
    List.IsPrefix ((WorkerPool.process reg0 dbC3 job3).execTrace)
      ([actNoop1, actBogus, actNoop5].map (fun a => (a.actionType, a.orderIndex))) :=
  C4_actions_sorted_and_sequential reg0 dbC3 job3 [actNoop1, actBogus, actNoop5] rfl

/-! ## C5 -/

/-- One loop iteration on a retryable outcome: record the failure text,
sleep `200*(attempt+1)` ms, continue with the next attempt. -/
theorem slackLoop_retryable_step (rs : Nat → Outcome) (text : String)
    (n a : Nat) (le : String) (ps : List String) (ss : List Nat) (r : Nat)
    (hn : n = r + 1) (hr : retryable (rs a)) :
    slackLoop rs text n a le ps ss =
      slackLoop rs text r (a + 1) (outcomeFailText (rs a)) (ps ++ [text])
        (ss ++ [200 * (a + 1)]) := by
  subst hn
  cases ho : rs a with
  | transport m => simp [slackLoop, ho, outcomeFailText]
  | status c =>
    rw [ho] at hr
    simp only [retryable] at hr
    simp only [slackLoop, ho, outcomeFailText]
    rw [if_pos hr]

/-- One loop iteration on a 2xx response: return nil at once. -/
theorem slackLoop_2xx_step (rs : Nat → Outcome) (text : String)
    (n a : Nat) (le : String) (ps : List String) (ss : List Nat) (r : Nat)
    (c : Nat) (hn : n = r + 1) (h0 : rs a = .status c)
    (hnr : ¬(c = 429 ∨ c ≥ 500)) (h2 : 200 ≤ c ∧ c < 300) :
    slackLoop rs text n a le ps ss =
      { result := none, posts := ps ++ [text], sleeps := ss } := by
  subst hn
  simp only [slackLoop, h0]
  rw [if_neg hnr, if_pos h2]

/-- One loop iteration on a non-retryable non-2xx status: terminal error at
once, no further attempts. -/
theorem slackLoop_terminal_step (rs : Nat → Outcome) (text : String)
    (n a : Nat) (le : String) (ps : List String) (ss : List Nat) (r : Nat)
    (c : Nat) (hn : n = r + 1) (h0 : rs a = .status c)
    (hnr : ¬(c = 429 ∨ c ≥ 500)) (h2 : ¬(200 ≤ c ∧ c < 300)) :
    slackLoop rs text n a le ps ss =
      { result := some ("slack returned non-retryable status " ++ toString c)
        posts := ps ++ [text], sleeps := ss } := by
  subst hn
  simp only [slackLoop, h0]
  rw [if_neg hnr, if_neg h2]

/-- C5: with a configured webhook URL, (a) when all three attempts observe
retryable outcomes (transport error, 429, or status ≥ 500), exactly 3 POST
attempts are made, the sleeps are 200 ms × attempt number ([200,400,600],
non-decreasing), and the returned error wraps the last observed failure;
(b) a 2xx on the first attempt returns nil after exactly one POST; (c) any
other non-2xx status on the first attempt returns a terminal error after
exactly one POST. -/
theorem C5_retry_policy (cfg : List (String × CVal)) (p : String)
    (rs : Nat → Outcome) (hurl : getStr cfg "webhook_url" ≠ "") :
    ((∀ i, i < 3 → retryable (rs i)) →
      (Sender.Execute cfg p rs).posts.length = 3 ∧
      (Sender.Execute cfg p rs).sleeps = [200, 400, 600] ∧
      (Sender.Execute cfg p rs).result =
        some ("slack send failed after retries: " ++ outcomeFailText (rs 2))) ∧
    (∀ c, rs 0 = .status c → 200 ≤ c → c < 300 →
      (Sender.Execute cfg p rs).result = none ∧
      (Sender.Execute cfg p rs).posts.length = 1) ∧
    (∀ c, rs 0 = .status c → ¬(c = 429 ∨ c ≥ 500) → ¬(200 ≤ c ∧ c < 300) →
      (Sender.Execute cfg p rs).result =
        some ("slack returned non-retryable status " ++ toString c) ∧
      (Sender.Execute cfg p rs).posts.length = 1) := by
  have hex : Sender.Execute cfg p rs =
      slackLoop rs (if getStr cfg "message_template" ≠ "" then getStr cfg "message_template"
        else "Payload:\n```json\n" ++ p ++ "\n```") 3 0 "" [] [] := by
    simp only [Sender.Execute]
    rw [if_neg hurl]
  generalize hT : (if getStr cfg "message_template" ≠ "" then getStr cfg "message_template"
    else "Payload:\n```json\n" ++ p ++ "\n```" : String) = T at hex
  refine ⟨?_, ?_, ?_⟩
  · intro h
    rw [hex,
      slackLoop_retryable_step rs T 3 0 "" [] [] 2 rfl (h 0 (by norm_num)),
      slackLoop_retryable_step rs T 2 (0 + 1) (outcomeFailText (rs 0))
        ([] ++ [T]) ([] ++ [200 * (0 + 1)]) 1 rfl (h (0 + 1) (by norm_num)),
      slackLoop_retryable_step rs T 1 (0 + 1 + 1) (outcomeFailText (rs (0 + 1)))
        (([] ++ [T]) ++ [T]) (([] ++ [200 * (0 + 1)]) ++ [200 * (0 + 1 + 1)]) 0 rfl
        (h (0 + 1 + 1) (by norm_num))]
    simp [slackLoop]
  · intro c h0 hlo hhi
    have hnr : ¬(c = 429 ∨ c ≥ 500) := by omega
    rw [hex, slackLoop_2xx_step rs T 3 0 "" [] [] 2 c rfl h0 hnr ⟨hlo, hhi⟩]
    simp
  · intro c h0 hnr h2
    rw [hex, slackLoop_terminal_step rs T 3 0 "" [] [] 2 c rfl h0 hnr h2]
    simp

def cfg5 : List (String × CVal) :=
  [("webhook_url", CVal.str "https://hooks.example.invalid/x")]

def rs5 : Nat → Outcome := fun _ => .status 503

theorem C5_retry_policy_witness :
    (Sender.Execute cfg5 "p" rs5).posts.length = 3 ∧
    (Sender.Execute cfg5 "p" rs5).sleeps = [200, 400, 600] ∧
    (Sender.Execute cfg5 "p" rs5).result =
      some ("slack send failed after retries: " ++ outcomeFailText (rs5 2)) :=
  (C5_retry_policy cfg5 "p" rs5 (by decide)).1 (fun i _ => Or.inr (by decide))

/-! ## C9 -/

/-- A canonically rendered UUID string is never empty (it always contains
its four hyphens). -/
theorem uuidNewString_ne_empty (bs : List Nat) : uuidNewString bs ≠ "" := by
  intro h
  have hlen : (uuidNewString bs).length = 0 := by rw [h]; rfl
  have h1 : ("-" : String).length = 1 := rfl
  simp only [uuidNewString, String.length_append, h1] at hlen
  omega

/-- C9: every event the webhook handler publishes carries a non-empty event
id, chosen as the `X-Event-ID` header when present, else the `event_id`
query parameter, else a freshly generated UUID. -/
theorem C9_webhook_event_id_nonempty (relayID hdr q : String) (bs : List Nat)
    (body : String) (ev : ExecutionEvent)
    (hpub : HandleWebhook relayID hdr q bs body = some ev) :
    ev.eventID ≠ "" ∧
    (hdr ≠ "" → ev.eventID = hdr) ∧
    (hdr = "" → q ≠ "" → ev.eventID = q) ∧
    (hdr = "" → q = "" → ev.eventID = uuidNewString bs) := by
  simp only [HandleWebhook] at hpub
  split at hpub
  · simp at hpub
  · injection hpub with hev
    subst hev
    refine ⟨?_, ?_, ?_, ?_⟩
    · by_cases hh : hdr = "" <;> by_cases hq : q = "" <;>
        simp [hh, hq, uuidNewString_ne_empty bs]
    · intro hh
      simp [hh]
    · intro hh hq
      simp [hh, hq]
    · intro hh hq
      simp [hh, hq]

theorem C9_webhook_event_id_nonempty_witness :
    ({ eventID := "hdr-1", relayID := "r9", payload := "b" } : ExecutionEvent).eventID ≠ "" :=
  (C9_webhook_event_id_nonempty "r9" "hdr-1" "" [] "b"
    { eventID := "hdr-1", relayID := "r9", payload := "b" } rfl).1

/-! ## C10 -/

/-- Every body the retry loop posts is either one it was already given or
the single text it was built with. -/
theorem slackLoop_posts_mem (rs : Nat → Outcome) (text : String) :
    ∀ (r a : Nat) (le : String) (ps : List String) (ss : List Nat),
      ∀ x ∈ (slackLoop rs text r a le ps ss).posts, x ∈ ps ∨ x = text
  | 0, a, le, ps, ss => by
    intro x hx
    simp only [slackLoop] at hx
    exact Or.inl hx
  | r + 1, a, le, ps, ss => by
    intro x hx
    simp only [slackLoop] at hx
    have hstep : ∀ y, y ∈ ps ++ [text] → y ∈ ps ∨ y = text := by
      intro y hy
      rcases List.mem_append.mp hy with h1 | h1
      · exact Or.inl h1
      · exact Or.inr (List.mem_singleton.mp h1)
    cases ho : rs a with
    | transport m =>
      simp only [ho] at hx
      rcases slackLoop_posts_mem rs text r (a + 1) m (ps ++ [text])
          (ss ++ [200 * (a + 1)]) x hx with h1 | h1
      · exact hstep x h1
      · exact Or.inr h1
    | status c =>
      simp only [ho] at hx
      by_cases hc : c = 429 ∨ c ≥ 500
      · rw [if_pos hc] at hx
        rcases slackLoop_posts_mem rs text r (a + 1) ("slack returned " ++ toString c)
            (ps ++ [text]) (ss ++ [200 * (a + 1)]) x hx with h1 | h1
        · exact hstep x h1
        · exact Or.inr h1
      · rw [if_neg hc] at hx
        by_cases h2 : 200 ≤ c ∧ c < 300
        · rw [if_pos h2] at hx
          exact hstep x hx
        · rw [if_neg h2] at hx
          exact hstep x hx

/-- C10: when the action's configuration carries a non-empty string under
`message_template`, the sender's whole behaviour — in particular the text
of every outgoing POST body — is exactly the template and is independent of
the job payload; when `message_template` is absent, empty, or not a string,
every posted text is the payload rendered into the `Payload:` json fence. -/
theorem C10_template_overrides_payload (cfg : List (String × CVal))
    (p : String) (rs : Nat → Outcome) :
    (getStr cfg "message_template" ≠ "" →
      (∀ q : String, Sender.Execute cfg p rs = Sender.Execute cfg q rs) ∧
      (∀ x ∈ (Sender.Execute cfg p rs).posts,
        x = getStr cfg "message_template")) ∧
    (getStr cfg "message_template" = "" →
      ∀ x ∈ (Sender.Execute cfg p rs).posts,
        x = "Payload:\n```json\n" ++ p ++ "\n```") := by
  constructor
  · intro ht
    constructor
    · intro q
      simp only [Sender.Execute]
      split
      · rfl
      · simp [ht]
    · intro x hx
      by_cases hu : getStr cfg "webhook_url" = ""
      · simp [Sender.Execute, hu] at hx
      · simp only [Sender.Execute] at hx
        rw [if_neg hu, if_pos ht] at hx
        rcases slackLoop_posts_mem rs (getStr cfg "message_template") 3 0 "" [] [] x hx
          with h1 | h1
        · simp at h1
        · exact h1
  · intro ht
    intro x hx
    by_cases hu : getStr cfg "webhook_url" = ""
    · simp [Sender.Execute, hu] at hx
    · simp only [Sender.Execute] at hx
      rw [if_neg hu, if_neg (by simp [ht])] at hx
      rcases slackLoop_posts_mem rs ("Payload:\n```json\n" ++ p ++ "\n```") 3 0 "" [] [] x hx
        with h1 | h1
      · simp at h1
      · exact h1

def cfgT : List (String × CVal) :=
  [("webhook_url", CVal.str "https://hooks.example.invalid/x"),
   ("message_template", CVal.str "hello from template")]

theorem C10_template_overrides_payload_witness :
    Sender.Execute cfgT "payload-a" rs5 = Sender.Execute cfgT "payload-b" rs5 :=
  ((C10_template_overrides_payload cfgT "payload-a" rs5).1 (by decide)).1 "payload-b"
